import Mathlib

/-!
Shallow embedding of `src/src/rtapi/rtapi_ring.c` (ring registry and
reference-counted lifecycle: `_rtapi_ring_new`, `_rtapi_ring_attach`,
`_rtapi_ring_refcount`, `_rtapi_ring_detach`).

Modelling conventions:
- machine `int` values that can be negative (handles, return codes,
  shared-memory ids) are `Int`; module ids, keys and sizes are `Nat`;
- the attacher bit set `rdptr->bitmap` (accessed only through `set_bit`,
  `clear_bit`, `test_bit`) is a `Finset Nat` of set bit indices;
- the shared-memory backend (`_rtapi_shmem_new`, `_rtapi_shmem_getptr`,
  `_rtapi_shmem_delete`, the `shmget` existence probe) is an opaque
  structure of functions; fallible calls return `Int` codes or `Option`;
- each operation returns, besides its `int` result and the new registry
  state, a trace of observable events: mutex acquisitions and releases
  (including the release performed by the `cleanup` attribute on scope
  exit), reads of a registry slot, and backend segment deletions;
- `rtapi_print_msg` logging has no registry effect and is not modelled;
  `rtapi_ringheader_init` / `rtapi_ringbufer_init` write only into the
  mapped segment payload, outside the registry, and are not modelled.
-/

/-- Error code EINVAL (22 on Linux); the C code returns `-EINVAL`. -/
def EINVAL : Int := 22

/-- Error code ENOMEM (12 on Linux); the C code returns `-ENOMEM`. -/
def ENOMEM : Int := 12

/-- Modelled from the spec: `RING_MAGIC`, the validity tag sentinel, is defined
in `rtapi_ring.h` which is not under `src/`; only that it is a fixed nonzero
constant matters (detach frees a slot by writing 0 over it). -/
def RING_MAGIC : Nat := 0x72696e67

/-- Modelled from the spec: the base key from which a slot key is derived as
`RTAPI_RING_SHM_KEY + index` (`rtapi_ring.h`, not under `src/`); the exact
value is irrelevant to the registry logic, only that it is a fixed base. -/
def RTAPI_RING_SHM_KEY : Nat := 0x00415000

/-- Modelled from the spec: `rtapi_ring_memsize(flags, size, sp_size)` computes
header size + ring buffer size + scratchpad size (`rtapi_ring.h`, not under
`src/`). The exact arithmetic is irrelevant to the registry logic. -/
def rtapi_ring_memsize (_flags size sp_size : Nat) : Nat := 64 + size + sp_size

/-- One registry slot: the fields of `ring_data` used by `rtapi_ring.c`.
`bitmap` is the attacher bit set, modelled as the set of set bit indices. -/
structure RingData where
  magic : Nat
  key : Nat
  owner : Nat
  shmem_id : Int
  bitmap : Finset Nat
  count : Nat
deriving DecidableEq

/-- The registry state: `ring_array`, plus the process-local pointer cache
`ring_addr_array` of the BUILD_SYS_USER_DSO build (`none` models NULL). -/
structure RingState where
  ring_array : Nat → RingData
  ring_addr_array : Nat → Option Nat

/-- Build configuration: `RTAPI_MAX_RINGS` and the preprocessor flavor flags
`BUILD_SYS_KBUILD` and `ULAPI` that select the conditionally compiled code. -/
structure RingCfg where
  maxRings : Nat
  kbuild : Bool
  ulapi : Bool

/-- The opaque shared-memory backend consumed by the registry:
`shmem_new key module size` returns a segment id (nonnegative) or a negative
error; `shmem_getptr sid` returns the mapped pointer or `none` on failure;
`shmem_delete sid owner` returns a status (nonzero = failure, logged only);
`shm_exists key` is the `shmget(key, 1, 0) / errno == ENOENT` existence probe
used by the non-KBUILD attach path. -/
structure ShmBackend where
  shmem_new : Nat → Nat → Nat → Int
  shmem_getptr : Int → Option Nat
  shmem_delete : Int → Nat → Int
  shm_exists : Nat → Bool

/-- The two lock words used by the file: `rtapi_data->ring_mutex` (taken by
`_rtapi_ring_new` and `_rtapi_ring_attach`, released by
`ring_autorelease_mutex`) and `rtapi_data->mutex` (taken by
`_rtapi_ring_refcount`, released by `rtapi_autorelease_mutex`). -/
inductive LockId
  | ringMutex
  | rtapiMutex
deriving DecidableEq

/-- Observable events emitted by an operation: lock acquisition/release,
first-class reads of a registry slot, and backend segment deletion calls. -/
inductive RingEv
  | acq : LockId → RingEv
  | rel : LockId → RingEv
  | readSlot : Nat → RingEv
  | shmemDelete : Int → Nat → RingEv
deriving DecidableEq

/-- Write slot `i` of the registry table. -/
def RingState.setSlot (s : RingState) (i : Nat) (d : RingData) : RingState :=
  { s with ring_array := Function.update s.ring_array i d }

/-- Write entry `i` of the process-local pointer cache. -/
def RingState.setAddr (s : RingState) (i : Nat) (p : Option Nat) : RingState :=
  { s with ring_addr_array := Function.update s.ring_addr_array i p }

/-- `set_bit(m, rdptr->bitmap)` on slot `h` of the table. -/
def set_bitSlot (s : RingState) (h m : Nat) : RingState :=
  s.setSlot h { s.ring_array h with bitmap := insert m (s.ring_array h).bitmap }

/-- The all-free registry: every slot zeroed, every cache entry NULL. -/
def initState : RingState :=
  { ring_array := fun _ => { magic := 0, key := 0, owner := 0, shmem_id := 0,
                             bitmap := ∅, count := 0 },
    ring_addr_array := fun _ => none }

/-- The free-slot scan of `_rtapi_ring_new`, with the remaining iteration
count as structural fuel: `findFreeFuel sl fuel i` visits `i, i+1, ...` for
`fuel` steps and stops at the first slot whose `magic` differs from
`RING_MAGIC`. -/
def findFreeFuel (sl : Nat → RingData) : Nat → Nat → Option Nat
  | 0, _ => none
  | fuel + 1, i =>
      if (sl i).magic ≠ RING_MAGIC then some i
      else findFreeFuel sl fuel (i + 1)

/-- The free-slot scan of `_rtapi_ring_new` (`for i in 0..RTAPI_MAX_RINGS`,
break at the first slot whose `magic` differs from `RING_MAGIC`). -/
def findFree (sl : Nat → RingData) (maxR : Nat) : Option Nat :=
  findFreeFuel sl maxR 0

/-- The loop of `_rtapi_ring_refcount`: the number of set bits of `bm` with
index below `maxR` (the C loop bound is `RTAPI_MAX_RINGS`). -/
def ring_refcount_count (bm : Finset Nat) (maxR : Nat) : Nat :=
  ((Finset.range maxR).filter (fun i => i ∈ bm)).card

/-- `_rtapi_ring_refcount(handle)`, lines 197 to 214. Acquires
`rtapi_data->mutex` (not the ring mutex) before the range check; the cleanup
attribute releases that same mutex on each return. No registry mutation. -/
def _rtapi_ring_refcount (cfg : RingCfg) (s : RingState) (handle : Int) :
    Int × List RingEv :=
  if handle < 0 ∨ (cfg.maxRings : Int) ≤ handle then
    (-EINVAL, [RingEv.acq LockId.rtapiMutex, RingEv.rel LockId.rtapiMutex])
  else if (s.ring_array handle.toNat).magic ≠ RING_MAGIC then
    (-EINVAL, [RingEv.acq LockId.rtapiMutex, RingEv.readSlot handle.toNat,
               RingEv.rel LockId.rtapiMutex])
  else
    ((ring_refcount_count (s.ring_array handle.toNat).bitmap cfg.maxRings : Int),
     [RingEv.acq LockId.rtapiMutex, RingEv.readSlot handle.toNat,
      RingEv.rel LockId.rtapiMutex])

/-- `clear_bit(m, rdptr->bitmap)` on slot `h` of the table. -/
def clear_bitSlot (s : RingState) (h m : Nat) : RingState :=
  s.setSlot h { s.ring_array h with bitmap := (s.ring_array h).bitmap.erase m }

/-- Scratch writes of `_rtapi_ring_new` performed before its two fallible
backend calls are checked: `rdptr->key`, `rdptr->owner` (lines 76 to 77) and
the unconditional store of the `_rtapi_shmem_new` result into
`rdptr->shmem_id` (line 80). -/
def newScratch (s : RingState) (i module_id : Nat) (sid : Int) : RingState :=
  s.setSlot i { s.ring_array i with
                key := RTAPI_RING_SHM_KEY + i, owner := module_id,
                shmem_id := sid }

/-- The successful tail of `_rtapi_ring_new` (lines 95 to 109): record the
local mapping under ULAPI, `set_bit` the creator, then commit `magic`. -/
def newCommit (cfg : RingCfg) (s : RingState) (i module_id : Nat) (sid : Int)
    (p : Nat) : RingState :=
  let s2 := newScratch s i module_id sid
  let s3 := if cfg.ulapi then s2.setAddr i (some p) else s2
  let s4 := set_bitSlot s3 i module_id
  s4.setSlot i { s4.ring_array i with magic := RING_MAGIC }

/-- Scratch writes of the external-lookup path of `_rtapi_ring_attach`:
`rdptr->key` (line 165) and the unconditional store of the
`_rtapi_shmem_new` result into `rdptr->shmem_id` (line 166). -/
def attachScratch (s : RingState) (h : Nat) (sid : Int) : RingState :=
  s.setSlot h { s.ring_array h with
                key := RTAPI_RING_SHM_KEY + h, shmem_id := sid }

/-- The successful tail of the external-lookup path of `_rtapi_ring_attach`
(lines 175 to 187): record the mapping in `ring_addr_array`, set `magic`,
bump `count`, then `set_bit` the caller. -/
def attachCommit (s : RingState) (h module_id : Nat) (sid : Int) (p : Nat) :
    RingState :=
  let s2 := attachScratch s h sid
  let s3 := s2.setAddr h (some p)
  let s4 := s3.setSlot h { s3.ring_array h with
                           magic := RING_MAGIC,
                           count := (s3.ring_array h).count + 1 }
  set_bitSlot s4 h module_id

/-- The teardown write of `_rtapi_ring_detach` (line 250): zero `magic`. -/
def freeSlot (s : RingState) (h : Nat) : RingState :=
  s.setSlot h { s.ring_array h with magic := 0 }

/-- `_rtapi_ring_new(size, sp_size, module_id, flags)`, lines 51 to 112.
Takes `ring_mutex` first; the cleanup attribute on `rdptr` releases it on
every return. Scans for the first free slot, writes key/owner/shmem_id,
calls the backend twice, then sets the attacher bit of the creator and
commits `magic` last; failures return `-ENOMEM` before the commit. -/
def _rtapi_ring_new (cfg : RingCfg) (bk : ShmBackend) (s : RingState)
    (size sp_size module_id flags : Nat) : Int × RingState × List RingEv :=
  match findFree s.ring_array cfg.maxRings with
  | none =>
      (-ENOMEM, s,
       RingEv.acq LockId.ringMutex ::
         ((List.range cfg.maxRings).map RingEv.readSlot ++
          [RingEv.rel LockId.ringMutex]))
  | some i =>
      let sid := bk.shmem_new (RTAPI_RING_SHM_KEY + i) module_id
        (rtapi_ring_memsize flags size sp_size)
      let tr := RingEv.acq LockId.ringMutex ::
        ((List.range (i + 1)).map RingEv.readSlot ++
         [RingEv.rel LockId.ringMutex])
      if sid < 0 then
        (-ENOMEM, newScratch s i module_id sid, tr)
      else
        match bk.shmem_getptr sid with
        | none => (-ENOMEM, newScratch s i module_id sid, tr)
        | some p => ((i : Int), newCommit cfg s i module_id sid p, tr)

/-- `_rtapi_ring_attach(handle, rbptr, module_id)`, lines 114 to 191.
Takes `ring_mutex` before the range check; the cleanup attribute releases it
on every return. A committed slot is resolved through `_rtapi_shmem_getptr`
under BUILD_SYS_KBUILD, and through `ring_addr_array` otherwise (a NULL cache
entry is the BUG path of line 139). An uncommitted handle fails with
`-ENOMEM` under BUILD_SYS_KBUILD; otherwise the segment existence is probed,
the segment is mapped fresh, the cache is populated and the slot committed
(lines 152 to 183). Every successful path ends in `set_bit(module_id)`. -/
def _rtapi_ring_attach (cfg : RingCfg) (bk : ShmBackend) (s : RingState)
    (handle : Int) (module_id : Nat) : Int × RingState × List RingEv :=
  if handle < 0 ∨ (cfg.maxRings : Int) ≤ handle then
    (-EINVAL, s, [RingEv.acq LockId.ringMutex, RingEv.rel LockId.ringMutex])
  else
    let h := handle.toNat
    let tr := [RingEv.acq LockId.ringMutex, RingEv.readSlot h,
               RingEv.rel LockId.ringMutex]
    if (s.ring_array h).magic = RING_MAGIC then
      if cfg.kbuild then
        match bk.shmem_getptr (s.ring_array h).shmem_id with
        | none => (-ENOMEM, s, tr)
        | some _ => (0, set_bitSlot s h module_id, tr)
      else
        match s.ring_addr_array h with
        | none => (-ENOMEM, s, tr)
        | some _ => (0, set_bitSlot s h module_id, tr)
    else
      if cfg.kbuild then
        (-ENOMEM, s, tr)
      else if ¬ bk.shm_exists (RTAPI_RING_SHM_KEY + h) then
        (-EINVAL, s, tr)
      else
        let sid := bk.shmem_new (RTAPI_RING_SHM_KEY + h) module_id 0
        if sid < 0 then
          (-ENOMEM, attachScratch s h sid, tr)
        else
          match bk.shmem_getptr sid with
          | none => (-ENOMEM, attachScratch s h sid, tr)
          | some p => (0, attachCommit s h module_id sid p, tr)

/-- `_rtapi_ring_detach(handle, module_id)`, lines 216 to 252. Note that no
mutex acquisition appears in the body; the cleanup attribute on `rdptr`
still releases `ring_mutex` on every return. Clears the caller bit, asks
`_rtapi_ring_refcount` (which takes and drops `rtapi_data->mutex`) for the
remaining count, and if it is zero deletes the segment (the delete status is
only logged) and frees the slot by zeroing `magic`. Returns 0 in both
branches. -/
def _rtapi_ring_detach (cfg : RingCfg) (bk : ShmBackend) (s : RingState)
    (handle : Int) (module_id : Nat) : Int × RingState × List RingEv :=
  if handle < 0 ∨ (cfg.maxRings : Int) ≤ handle then
    (-EINVAL, s, [RingEv.rel LockId.ringMutex])
  else
    let h := handle.toNat
    if (s.ring_array h).magic ≠ RING_MAGIC then
      (-EINVAL, s, [RingEv.readSlot h, RingEv.rel LockId.ringMutex])
    else
      let s1 := clear_bitSlot s h module_id
      let rc := _rtapi_ring_refcount cfg s1 handle
      if rc.1 ≠ 0 then
        (0, s1, RingEv.readSlot h :: (rc.2 ++ [RingEv.rel LockId.ringMutex]))
      else
        (0, freeSlot s1 h,
         RingEv.readSlot h ::
           (rc.2 ++ [RingEv.shmemDelete (s1.ring_array h).shmem_id
                       (s1.ring_array h).owner,
                     RingEv.rel LockId.ringMutex]))

/-- One completed registry call, for reachability over call sequences. -/
inductive RingOp
  | createOp (size sp_size module_id flags : Nat)
  | attachOp (handle : Int) (module_id : Nat)
  | detachOp (handle : Int) (module_id : Nat)
  | refcountOp (handle : Int)

/-- The module id an operation carries (0 for the read-only refcount). -/
def RingOp.modId : RingOp → Nat
  | .createOp _ _ m _ => m
  | .attachOp _ m => m
  | .detachOp _ m => m
  | .refcountOp _ => 0

/-- State transformer of one completed call (refcount does not mutate). -/
def stepOp (cfg : RingCfg) (bk : ShmBackend) (s : RingState) : RingOp → RingState
  | .createOp a b m fl => (_rtapi_ring_new cfg bk s a b m fl).2.1
  | .attachOp hd m => (_rtapi_ring_attach cfg bk s hd m).2.1
  | .detachOp hd m => (_rtapi_ring_detach cfg bk s hd m).2.1
  | .refcountOp _ => s

/-- Run a sequence of completed calls from a state. -/
def runOps (cfg : RingCfg) (bk : ShmBackend) (s : RingState) :
    List RingOp → RingState
  | [] => s
  | op :: rest => runOps cfg bk (stepOp cfg bk s op) rest

/-- The committed-slots-have-attachers invariant: every slot whose tag holds
the magic constant has a non-empty attacher bit set. -/
def TagNonEmptyInv (s : RingState) : Prop :=
  ∀ h : Nat, (s.ring_array h).magic = RING_MAGIC →
    (s.ring_array h).bitmap.Nonempty

/-- A backend on which every segment creation and mapping succeeds. -/
def ShmBackend.AllOk (bk : ShmBackend) : Prop :=
  (∀ k m sz, 0 ≤ bk.shmem_new k m sz) ∧
  (∀ sid, (bk.shmem_getptr sid).isSome)

/-- Iterate `_rtapi_ring_new` with fixed arguments, collecting the results. -/
def createRun (cfg : RingCfg) (bk : ShmBackend) (a b m fl : Nat) :
    RingState → Nat → List Int × RingState
  | s, 0 => ([], s)
  | s, n + 1 =>
      let r := _rtapi_ring_new cfg bk s a b m fl
      let rest := createRun cfg bk a b m fl r.2.1 n
      (r.1 :: rest.1, rest.2)

/-- A non-KBUILD userland configuration with a small RTAPI_MAX_RINGS, used
for concrete evaluations. -/
def cfgU : RingCfg := { maxRings := 3, kbuild := false, ulapi := true }

/-- A BUILD_SYS_KBUILD configuration with the same capacity. -/
def cfgK : RingCfg := { maxRings := 3, kbuild := true, ulapi := false }

/-- A backend on which every call succeeds. -/
def bkOK : ShmBackend :=
  { shmem_new := fun _ _ _ => 7, shmem_getptr := fun _ => some 1,
    shmem_delete := fun _ _ => 0, shm_exists := fun _ => true }

/-- A backend whose segment creation fails. -/
def bkNewFail : ShmBackend := { bkOK with shmem_new := fun _ _ _ => -1 }

/-- A backend whose segment mapping fails. -/
def bkPtrFail : ShmBackend := { bkOK with shmem_getptr := fun _ => none }

/-- A backend whose segment deletion fails (status -1, logged only). -/
def bkDelFail : ShmBackend := { bkOK with shmem_delete := fun _ _ => -1 }

/-- A committed slot owned and attached by module 1. -/
def slotOne : RingData :=
  { magic := RING_MAGIC, key := RTAPI_RING_SHM_KEY, owner := 1,
    shmem_id := 3, bitmap := {1}, count := 1 }

/-- A registry with exactly slot 0 committed, attached by module 1 only. -/
def sOne : RingState := initState.setSlot 0 slotOne

/-- Same as `sOne` but with the local pointer cache populated for slot 0. -/
def sOneC : RingState := sOne.setAddr 0 (some 5)

/-- A registry with slot 0 committed whose only attacher bit is 3, an index
not below `cfgU.maxRings = 3` and hence outside the refcount loop range. -/
def sOneHigh : RingState := initState.setSlot 0 { slotOne with bitmap := {3} }

/-- A registry with all three slots of `cfgU` committed. -/
def sFull : RingState :=
  ((initState.setSlot 0 slotOne).setSlot 1 slotOne).setSlot 2 slotOne

@[simp] theorem setSlot_self (s : RingState) (i : Nat) (d : RingData) :
    (s.setSlot i d).ring_array i = d := by
  simp [RingState.setSlot]

theorem setSlot_ne (s : RingState) (i j : Nat) (d : RingData) (hji : j ≠ i) :
    (s.setSlot i d).ring_array j = s.ring_array j := by
  simp [RingState.setSlot, Function.update, hji]

@[simp] theorem setSlot_addr (s : RingState) (i : Nat) (d : RingData) :
    (s.setSlot i d).ring_addr_array = s.ring_addr_array := rfl

@[simp] theorem setAddr_ring (s : RingState) (i : Nat) (p : Option Nat) :
    (s.setAddr i p).ring_array = s.ring_array := rfl

theorem set_bitSlot_self (s : RingState) (h m : Nat) :
    (set_bitSlot s h m).ring_array h =
      { s.ring_array h with bitmap := insert m (s.ring_array h).bitmap } := by
  simp [set_bitSlot]

theorem set_bitSlot_ne (s : RingState) (h m j : Nat) (hj : j ≠ h) :
    (set_bitSlot s h m).ring_array j = s.ring_array j := by
  simp [set_bitSlot, setSlot_ne _ _ _ _ hj]

theorem clear_bitSlot_self (s : RingState) (h m : Nat) :
    (clear_bitSlot s h m).ring_array h =
      { s.ring_array h with bitmap := (s.ring_array h).bitmap.erase m } := by
  simp [clear_bitSlot]

theorem clear_bitSlot_ne (s : RingState) (h m j : Nat) (hj : j ≠ h) :
    (clear_bitSlot s h m).ring_array j = s.ring_array j := by
  simp [clear_bitSlot, setSlot_ne _ _ _ _ hj]

theorem freeSlot_self (s : RingState) (h : Nat) :
    (freeSlot s h).ring_array h = { s.ring_array h with magic := 0 } := by
  simp [freeSlot]

theorem freeSlot_ne (s : RingState) (h j : Nat) (hj : j ≠ h) :
    (freeSlot s h).ring_array j = s.ring_array j := by
  simp [freeSlot, setSlot_ne _ _ _ _ hj]

theorem newScratch_self (s : RingState) (i m : Nat) (sid : Int) :
    (newScratch s i m sid).ring_array i =
      { s.ring_array i with key := RTAPI_RING_SHM_KEY + i, owner := m,
                            shmem_id := sid } := by
  simp [newScratch]

theorem newScratch_ne (s : RingState) (i m : Nat) (sid : Int) (j : Nat)
    (hj : j ≠ i) :
    (newScratch s i m sid).ring_array j = s.ring_array j := by
  simp [newScratch, setSlot_ne _ _ _ _ hj]

@[simp] theorem newScratch_addr (s : RingState) (i m : Nat) (sid : Int) :
    (newScratch s i m sid).ring_addr_array = s.ring_addr_array := rfl

theorem newCommit_self (cfg : RingCfg) (s : RingState) (i m : Nat) (sid : Int)
    (p : Nat) :
    (newCommit cfg s i m sid p).ring_array i =
      { magic := RING_MAGIC, key := RTAPI_RING_SHM_KEY + i, owner := m,
        shmem_id := sid, bitmap := insert m (s.ring_array i).bitmap,
        count := (s.ring_array i).count } := by
  by_cases hu : cfg.ulapi <;>
    simp [newCommit, set_bitSlot, newScratch, hu]

theorem newCommit_ne (cfg : RingCfg) (s : RingState) (i m : Nat) (sid : Int)
    (p : Nat) (j : Nat) (hj : j ≠ i) :
    (newCommit cfg s i m sid p).ring_array j = s.ring_array j := by
  by_cases hu : cfg.ulapi <;>
    simp [newCommit, set_bitSlot, newScratch, hu, setSlot_ne _ _ _ _ hj]

theorem attachScratch_self (s : RingState) (h : Nat) (sid : Int) :
    (attachScratch s h sid).ring_array h =
      { s.ring_array h with key := RTAPI_RING_SHM_KEY + h, shmem_id := sid } := by
  simp [attachScratch]

theorem attachScratch_ne (s : RingState) (h : Nat) (sid : Int) (j : Nat)
    (hj : j ≠ h) :
    (attachScratch s h sid).ring_array j = s.ring_array j := by
  simp [attachScratch, setSlot_ne _ _ _ _ hj]

theorem attachCommit_self (s : RingState) (h m : Nat) (sid : Int) (p : Nat) :
    (attachCommit s h m sid p).ring_array h =
      { magic := RING_MAGIC, key := RTAPI_RING_SHM_KEY + h,
        owner := (s.ring_array h).owner, shmem_id := sid,
        bitmap := insert m (s.ring_array h).bitmap,
        count := (s.ring_array h).count + 1 } := by
  simp [attachCommit, attachScratch, set_bitSlot]

theorem attachCommit_ne (s : RingState) (h m : Nat) (sid : Int) (p : Nat)
    (j : Nat) (hj : j ≠ h) :
    (attachCommit s h m sid p).ring_array j = s.ring_array j := by
  simp [attachCommit, attachScratch, set_bitSlot, setSlot_ne _ _ _ _ hj]

theorem refcount_oor (cfg : RingCfg) (s : RingState) (handle : Int)
    (hr : handle < 0 ∨ (cfg.maxRings : Int) ≤ handle) :
    _rtapi_ring_refcount cfg s handle =
      (-EINVAL, [RingEv.acq LockId.rtapiMutex, RingEv.rel LockId.rtapiMutex]) := by
  simp only [_rtapi_ring_refcount, if_pos hr]

theorem refcount_free (cfg : RingCfg) (s : RingState) (handle : Int)
    (hr : ¬ (handle < 0 ∨ (cfg.maxRings : Int) ≤ handle))
    (hm : (s.ring_array handle.toNat).magic ≠ RING_MAGIC) :
    _rtapi_ring_refcount cfg s handle =
      (-EINVAL, [RingEv.acq LockId.rtapiMutex, RingEv.readSlot handle.toNat,
                 RingEv.rel LockId.rtapiMutex]) := by
  simp only [_rtapi_ring_refcount, if_neg hr, if_pos hm]

theorem refcount_committed (cfg : RingCfg) (s : RingState) (handle : Int)
    (hr : ¬ (handle < 0 ∨ (cfg.maxRings : Int) ≤ handle))
    (hm : (s.ring_array handle.toNat).magic = RING_MAGIC) :
    _rtapi_ring_refcount cfg s handle =
      ((ring_refcount_count (s.ring_array handle.toNat).bitmap cfg.maxRings : Int),
       [RingEv.acq LockId.rtapiMutex, RingEv.readSlot handle.toNat,
        RingEv.rel LockId.rtapiMutex]) := by
  simp only [_rtapi_ring_refcount, if_neg hr]
  rw [if_neg (by simp [hm])]

theorem ring_new_exhausted (cfg : RingCfg) (bk : ShmBackend) (s : RingState)
    (a b m fl : Nat) (hf : findFree s.ring_array cfg.maxRings = none) :
    _rtapi_ring_new cfg bk s a b m fl =
      (-ENOMEM, s,
       RingEv.acq LockId.ringMutex ::
         ((List.range cfg.maxRings).map RingEv.readSlot ++
          [RingEv.rel LockId.ringMutex])) := by
  simp only [_rtapi_ring_new, hf]

theorem ring_new_newfail (cfg : RingCfg) (bk : ShmBackend) (s : RingState)
    (a b m fl : Nat) (i : Nat)
    (hf : findFree s.ring_array cfg.maxRings = some i)
    (hs : bk.shmem_new (RTAPI_RING_SHM_KEY + i) m
      (rtapi_ring_memsize fl a b) < 0) :
    _rtapi_ring_new cfg bk s a b m fl =
      (-ENOMEM,
       newScratch s i m (bk.shmem_new (RTAPI_RING_SHM_KEY + i) m
         (rtapi_ring_memsize fl a b)),
       RingEv.acq LockId.ringMutex ::
         ((List.range (i + 1)).map RingEv.readSlot ++
          [RingEv.rel LockId.ringMutex])) := by
  simp only [_rtapi_ring_new, hf, if_pos hs]

theorem ring_new_ptrfail (cfg : RingCfg) (bk : ShmBackend) (s : RingState)
    (a b m fl : Nat) (i : Nat)
    (hf : findFree s.ring_array cfg.maxRings = some i)
    (hs : ¬ bk.shmem_new (RTAPI_RING_SHM_KEY + i) m
      (rtapi_ring_memsize fl a b) < 0)
    (hp : bk.shmem_getptr (bk.shmem_new (RTAPI_RING_SHM_KEY + i) m
      (rtapi_ring_memsize fl a b)) = none) :
    _rtapi_ring_new cfg bk s a b m fl =
      (-ENOMEM,
       newScratch s i m (bk.shmem_new (RTAPI_RING_SHM_KEY + i) m
         (rtapi_ring_memsize fl a b)),
       RingEv.acq LockId.ringMutex ::
         ((List.range (i + 1)).map RingEv.readSlot ++
          [RingEv.rel LockId.ringMutex])) := by
  simp only [_rtapi_ring_new, hf, if_neg hs, hp]

theorem ring_new_success (cfg : RingCfg) (bk : ShmBackend) (s : RingState)
    (a b m fl : Nat) (i : Nat) (p : Nat)
    (hf : findFree s.ring_array cfg.maxRings = some i)
    (hs : ¬ bk.shmem_new (RTAPI_RING_SHM_KEY + i) m
      (rtapi_ring_memsize fl a b) < 0)
    (hp : bk.shmem_getptr (bk.shmem_new (RTAPI_RING_SHM_KEY + i) m
      (rtapi_ring_memsize fl a b)) = some p) :
    _rtapi_ring_new cfg bk s a b m fl =
      ((i : Int),
       newCommit cfg s i m (bk.shmem_new (RTAPI_RING_SHM_KEY + i) m
         (rtapi_ring_memsize fl a b)) p,
       RingEv.acq LockId.ringMutex ::
         ((List.range (i + 1)).map RingEv.readSlot ++
          [RingEv.rel LockId.ringMutex])) := by
  simp only [_rtapi_ring_new, hf, if_neg hs, hp]

theorem ring_attach_oor (cfg : RingCfg) (bk : ShmBackend) (s : RingState)
    (handle : Int) (m : Nat)
    (hr : handle < 0 ∨ (cfg.maxRings : Int) ≤ handle) :
    _rtapi_ring_attach cfg bk s handle m =
      (-EINVAL, s, [RingEv.acq LockId.ringMutex, RingEv.rel LockId.ringMutex]) := by
  simp only [_rtapi_ring_attach, if_pos hr]

theorem ring_attach_kbuild_ptrfail (cfg : RingCfg) (bk : ShmBackend)
    (s : RingState) (handle : Int) (m : Nat)
    (hr : ¬ (handle < 0 ∨ (cfg.maxRings : Int) ≤ handle))
    (hm : (s.ring_array handle.toNat).magic = RING_MAGIC)
    (hk : cfg.kbuild = true)
    (hp : bk.shmem_getptr (s.ring_array handle.toNat).shmem_id = none) :
    _rtapi_ring_attach cfg bk s handle m =
      (-ENOMEM, s, [RingEv.acq LockId.ringMutex, RingEv.readSlot handle.toNat,
                    RingEv.rel LockId.ringMutex]) := by
  simp only [_rtapi_ring_attach, if_neg hr, if_pos hm, hk, if_true, hp]

theorem ring_attach_kbuild_ok (cfg : RingCfg) (bk : ShmBackend)
    (s : RingState) (handle : Int) (m : Nat) (p : Nat)
    (hr : ¬ (handle < 0 ∨ (cfg.maxRings : Int) ≤ handle))
    (hm : (s.ring_array handle.toNat).magic = RING_MAGIC)
    (hk : cfg.kbuild = true)
    (hp : bk.shmem_getptr (s.ring_array handle.toNat).shmem_id = some p) :
    _rtapi_ring_attach cfg bk s handle m =
      (0, set_bitSlot s handle.toNat m,
       [RingEv.acq LockId.ringMutex, RingEv.readSlot handle.toNat,
        RingEv.rel LockId.ringMutex]) := by
  simp only [_rtapi_ring_attach, if_neg hr, if_pos hm, hk, if_true, hp]

theorem ring_attach_resident_null (cfg : RingCfg) (bk : ShmBackend)
    (s : RingState) (handle : Int) (m : Nat)
    (hr : ¬ (handle < 0 ∨ (cfg.maxRings : Int) ≤ handle))
    (hm : (s.ring_array handle.toNat).magic = RING_MAGIC)
    (hk : cfg.kbuild = false)
    (hp : s.ring_addr_array handle.toNat = none) :
    _rtapi_ring_attach cfg bk s handle m =
      (-ENOMEM, s, [RingEv.acq LockId.ringMutex, RingEv.readSlot handle.toNat,
                    RingEv.rel LockId.ringMutex]) := by
  simp only [_rtapi_ring_attach, if_neg hr, if_pos hm, hk, if_false, hp]
  simp

theorem ring_attach_resident_ok (cfg : RingCfg) (bk : ShmBackend)
    (s : RingState) (handle : Int) (m : Nat) (p : Nat)
    (hr : ¬ (handle < 0 ∨ (cfg.maxRings : Int) ≤ handle))
    (hm : (s.ring_array handle.toNat).magic = RING_MAGIC)
    (hk : cfg.kbuild = false)
    (hp : s.ring_addr_array handle.toNat = some p) :
    _rtapi_ring_attach cfg bk s handle m =
      (0, set_bitSlot s handle.toNat m,
       [RingEv.acq LockId.ringMutex, RingEv.readSlot handle.toNat,
        RingEv.rel LockId.ringMutex]) := by
  simp only [_rtapi_ring_attach, if_neg hr, if_pos hm, hk, if_false, hp]
  simp

theorem ring_attach_kbuild_nonexistent (cfg : RingCfg) (bk : ShmBackend)
    (s : RingState) (handle : Int) (m : Nat)
    (hr : ¬ (handle < 0 ∨ (cfg.maxRings : Int) ≤ handle))
    (hm : ¬ (s.ring_array handle.toNat).magic = RING_MAGIC)
    (hk : cfg.kbuild = true) :
    _rtapi_ring_attach cfg bk s handle m =
      (-ENOMEM, s, [RingEv.acq LockId.ringMutex, RingEv.readSlot handle.toNat,
                    RingEv.rel LockId.ringMutex]) := by
  simp only [_rtapi_ring_attach, if_neg hr, if_neg hm, hk, if_true]

theorem ring_attach_noseg (cfg : RingCfg) (bk : ShmBackend)
    (s : RingState) (handle : Int) (m : Nat)
    (hr : ¬ (handle < 0 ∨ (cfg.maxRings : Int) ≤ handle))
    (hm : ¬ (s.ring_array handle.toNat).magic = RING_MAGIC)
    (hk : cfg.kbuild = false)
    (he : bk.shm_exists (RTAPI_RING_SHM_KEY + handle.toNat) = false) :
    _rtapi_ring_attach cfg bk s handle m =
      (-EINVAL, s, [RingEv.acq LockId.ringMutex, RingEv.readSlot handle.toNat,
                    RingEv.rel LockId.ringMutex]) := by
  simp only [_rtapi_ring_attach, if_neg hr, if_neg hm, hk, if_false, he]
  simp

theorem ring_attach_ext_newfail (cfg : RingCfg) (bk : ShmBackend)
    (s : RingState) (handle : Int) (m : Nat)
    (hr : ¬ (handle < 0 ∨ (cfg.maxRings : Int) ≤ handle))
    (hm : ¬ (s.ring_array handle.toNat).magic = RING_MAGIC)
    (hk : cfg.kbuild = false)
    (he : bk.shm_exists (RTAPI_RING_SHM_KEY + handle.toNat) = true)
    (hs : bk.shmem_new (RTAPI_RING_SHM_KEY + handle.toNat) m 0 < 0) :
    _rtapi_ring_attach cfg bk s handle m =
      (-ENOMEM,
       attachScratch s handle.toNat
         (bk.shmem_new (RTAPI_RING_SHM_KEY + handle.toNat) m 0),
       [RingEv.acq LockId.ringMutex, RingEv.readSlot handle.toNat,
        RingEv.rel LockId.ringMutex]) := by
  simp only [_rtapi_ring_attach, if_neg hr, if_neg hm, hk, if_false, he,
             if_pos hs]
  simp

theorem ring_attach_ext_ptrfail (cfg : RingCfg) (bk : ShmBackend)
    (s : RingState) (handle : Int) (m : Nat)
    (hr : ¬ (handle < 0 ∨ (cfg.maxRings : Int) ≤ handle))
    (hm : ¬ (s.ring_array handle.toNat).magic = RING_MAGIC)
    (hk : cfg.kbuild = false)
    (he : bk.shm_exists (RTAPI_RING_SHM_KEY + handle.toNat) = true)
    (hs : ¬ bk.shmem_new (RTAPI_RING_SHM_KEY + handle.toNat) m 0 < 0)
    (hp : bk.shmem_getptr (bk.shmem_new (RTAPI_RING_SHM_KEY + handle.toNat) m 0)
      = none) :
    _rtapi_ring_attach cfg bk s handle m =
      (-ENOMEM,
       attachScratch s handle.toNat
         (bk.shmem_new (RTAPI_RING_SHM_KEY + handle.toNat) m 0),
       [RingEv.acq LockId.ringMutex, RingEv.readSlot handle.toNat,
        RingEv.rel LockId.ringMutex]) := by
  simp only [_rtapi_ring_attach, if_neg hr, if_neg hm, hk, if_false, he,
             if_neg hs, hp]
  simp

theorem ring_attach_ext_ok (cfg : RingCfg) (bk : ShmBackend)
    (s : RingState) (handle : Int) (m : Nat) (p : Nat)
    (hr : ¬ (handle < 0 ∨ (cfg.maxRings : Int) ≤ handle))
    (hm : ¬ (s.ring_array handle.toNat).magic = RING_MAGIC)
    (hk : cfg.kbuild = false)
    (he : bk.shm_exists (RTAPI_RING_SHM_KEY + handle.toNat) = true)
    (hs : ¬ bk.shmem_new (RTAPI_RING_SHM_KEY + handle.toNat) m 0 < 0)
    (hp : bk.shmem_getptr (bk.shmem_new (RTAPI_RING_SHM_KEY + handle.toNat) m 0)
      = some p) :
    _rtapi_ring_attach cfg bk s handle m =
      (0,
       attachCommit s handle.toNat m
         (bk.shmem_new (RTAPI_RING_SHM_KEY + handle.toNat) m 0) p,
       [RingEv.acq LockId.ringMutex, RingEv.readSlot handle.toNat,
        RingEv.rel LockId.ringMutex]) := by
  simp only [_rtapi_ring_attach, if_neg hr, if_neg hm, hk, if_false, he,
             if_neg hs, hp]
  simp

theorem ring_detach_oor (cfg : RingCfg) (bk : ShmBackend) (s : RingState)
    (handle : Int) (m : Nat)
    (hr : handle < 0 ∨ (cfg.maxRings : Int) ≤ handle) :
    _rtapi_ring_detach cfg bk s handle m =
      (-EINVAL, s, [RingEv.rel LockId.ringMutex]) := by
  simp only [_rtapi_ring_detach, if_pos hr]

theorem ring_detach_free (cfg : RingCfg) (bk : ShmBackend) (s : RingState)
    (handle : Int) (m : Nat)
    (hr : ¬ (handle < 0 ∨ (cfg.maxRings : Int) ≤ handle))
    (hm : ¬ (s.ring_array handle.toNat).magic = RING_MAGIC) :
    _rtapi_ring_detach cfg bk s handle m =
      (-EINVAL, s, [RingEv.readSlot handle.toNat, RingEv.rel LockId.ringMutex]) := by
  simp only [_rtapi_ring_detach, if_neg hr, if_pos hm]

theorem ring_detach_retained (cfg : RingCfg) (bk : ShmBackend) (s : RingState)
    (handle : Int) (m : Nat)
    (hr : ¬ (handle < 0 ∨ (cfg.maxRings : Int) ≤ handle))
    (hm : (s.ring_array handle.toNat).magic = RING_MAGIC)
    (hc : ring_refcount_count ((s.ring_array handle.toNat).bitmap.erase m)
      cfg.maxRings ≠ 0) :
    _rtapi_ring_detach cfg bk s handle m =
      (0, clear_bitSlot s handle.toNat m,
       [RingEv.readSlot handle.toNat, RingEv.acq LockId.rtapiMutex,
        RingEv.readSlot handle.toNat, RingEv.rel LockId.rtapiMutex,
        RingEv.rel LockId.ringMutex]) := by
  have hm1 : ((clear_bitSlot s handle.toNat m).ring_array handle.toNat).magic
      = RING_MAGIC := by
    rw [clear_bitSlot_self]; exact hm
  have hb1 : ((clear_bitSlot s handle.toNat m).ring_array handle.toNat).bitmap
      = (s.ring_array handle.toNat).bitmap.erase m := by
    rw [clear_bitSlot_self]
  simp only [_rtapi_ring_detach, if_neg hr]
  rw [if_neg (by simp [hm])]
  rw [refcount_committed cfg _ handle hr hm1]
  rw [hb1]
  simp only [ne_eq, Int.natCast_eq_zero]
  rw [if_pos hc]
  simp

theorem ring_detach_freed (cfg : RingCfg) (bk : ShmBackend) (s : RingState)
    (handle : Int) (m : Nat)
    (hr : ¬ (handle < 0 ∨ (cfg.maxRings : Int) ≤ handle))
    (hm : (s.ring_array handle.toNat).magic = RING_MAGIC)
    (hc : ring_refcount_count ((s.ring_array handle.toNat).bitmap.erase m)
      cfg.maxRings = 0) :
    _rtapi_ring_detach cfg bk s handle m =
      (0, freeSlot (clear_bitSlot s handle.toNat m) handle.toNat,
       [RingEv.readSlot handle.toNat, RingEv.acq LockId.rtapiMutex,
        RingEv.readSlot handle.toNat, RingEv.rel LockId.rtapiMutex,
        RingEv.shmemDelete (s.ring_array handle.toNat).shmem_id
          (s.ring_array handle.toNat).owner,
        RingEv.rel LockId.ringMutex]) := by
  have hm1 : ((clear_bitSlot s handle.toNat m).ring_array handle.toNat).magic
      = RING_MAGIC := by
    rw [clear_bitSlot_self]; exact hm
  have hb1 : ((clear_bitSlot s handle.toNat m).ring_array handle.toNat).bitmap
      = (s.ring_array handle.toNat).bitmap.erase m := by
    rw [clear_bitSlot_self]
  have hsid : ((clear_bitSlot s handle.toNat m).ring_array handle.toNat).shmem_id
      = (s.ring_array handle.toNat).shmem_id := by
    rw [clear_bitSlot_self]
  have how : ((clear_bitSlot s handle.toNat m).ring_array handle.toNat).owner
      = (s.ring_array handle.toNat).owner := by
    rw [clear_bitSlot_self]
  simp only [_rtapi_ring_detach, if_neg hr]
  rw [if_neg (by simp [hm])]
  rw [refcount_committed cfg _ handle hr hm1]
  rw [hb1, hsid, how]
  simp only [ne_eq, Int.natCast_eq_zero, hc]
  simp

theorem findFreeFuel_some_spec (sl : Nat → RingData) :
    ∀ fuel i k, findFreeFuel sl fuel i = some k →
      i ≤ k ∧ k < i + fuel ∧ (sl k).magic ≠ RING_MAGIC ∧
        ∀ j, i ≤ j → j < k → (sl j).magic = RING_MAGIC := by
  intro fuel
  induction fuel with
  | zero => intro i k h; simp [findFreeFuel] at h
  | succ n ih =>
      intro i k h
      rw [findFreeFuel] at h
      by_cases hm : (sl i).magic ≠ RING_MAGIC
      · rw [if_pos hm] at h
        obtain rfl : i = k := by injection h
        exact ⟨le_refl _, by omega, hm, fun j h1 h2 => absurd (lt_of_le_of_lt h1 h2) (lt_irrefl _)⟩
      · rw [if_neg hm] at h
        obtain ⟨h1, h2, h3, h4⟩ := ih (i + 1) k h
        refine ⟨by omega, by omega, h3, fun j hj1 hj2 => ?_⟩
        rcases eq_or_lt_of_le hj1 with rfl | hj3
        · exact not_not.mp hm
        · exact h4 j hj3 hj2

theorem findFreeFuel_eq_some (sl : Nat → RingData) :
    ∀ fuel i k, i ≤ k → k < i + fuel → (sl k).magic ≠ RING_MAGIC →
      (∀ j, i ≤ j → j < k → (sl j).magic = RING_MAGIC) →
      findFreeFuel sl fuel i = some k := by
  intro fuel
  induction fuel with
  | zero => intro i k h1 h2; omega
  | succ n ih =>
      intro i k h1 h2 h3 h4
      rw [findFreeFuel]
      rcases eq_or_lt_of_le h1 with rfl | hik
      · rw [if_pos h3]
      · rw [if_neg (by simpa using h4 i (le_refl _) hik)]
        exact ih (i + 1) k hik (by omega) h3 (fun j hj1 hj2 => h4 j (by omega) hj2)

theorem findFreeFuel_eq_none (sl : Nat → RingData) :
    ∀ fuel i, (∀ j, i ≤ j → j < i + fuel → (sl j).magic = RING_MAGIC) →
      findFreeFuel sl fuel i = none := by
  intro fuel
  induction fuel with
  | zero => intro i _; rfl
  | succ n ih =>
      intro i h
      rw [findFreeFuel]
      rw [if_neg (by simpa using h i (le_refl _) (by omega))]
      exact ih (i + 1) (fun j hj1 hj2 => h j (by omega) (by omega))

theorem findFree_some_spec (sl : Nat → RingData) (maxR k : Nat)
    (h : findFree sl maxR = some k) :
    k < maxR ∧ (sl k).magic ≠ RING_MAGIC ∧
      ∀ j, j < k → (sl j).magic = RING_MAGIC := by
  obtain ⟨_, h2, h3, h4⟩ := findFreeFuel_some_spec sl maxR 0 k h
  exact ⟨by omega, h3, fun j hj => h4 j (Nat.zero_le _) hj⟩

theorem findFree_eq_some (sl : Nat → RingData) (maxR k : Nat)
    (h1 : k < maxR) (h2 : (sl k).magic ≠ RING_MAGIC)
    (h3 : ∀ j, j < k → (sl j).magic = RING_MAGIC) :
    findFree sl maxR = some k :=
  findFreeFuel_eq_some sl maxR 0 k (Nat.zero_le _) (by omega) h2
    (fun j _ hj => h3 j hj)

theorem findFree_eq_none (sl : Nat → RingData) (maxR : Nat)
    (h : ∀ j, j < maxR → (sl j).magic = RING_MAGIC) :
    findFree sl maxR = none :=
  findFreeFuel_eq_none sl maxR 0 (fun j _ hj => h j (by omega))

theorem newScratch_magic (s : RingState) (i m : Nat) (sid : Int) (j : Nat) :
    ((newScratch s i m sid).ring_array j).magic = (s.ring_array j).magic := by
  rcases eq_or_ne j i with rfl | hj
  · rw [newScratch_self]
  · rw [newScratch_ne s i m sid j hj]

theorem newScratch_bitmap (s : RingState) (i m : Nat) (sid : Int) (j : Nat) :
    ((newScratch s i m sid).ring_array j).bitmap = (s.ring_array j).bitmap := by
  rcases eq_or_ne j i with rfl | hj
  · rw [newScratch_self]
  · rw [newScratch_ne s i m sid j hj]

/-- C1 evidence: at handle 0 the detach trace opens with a slot read and holds
no acquisition of any lock, while the other three operations each open with an
acquisition, and refcount acquires a different lock than create and attach. -/
theorem C1_detach_no_lock_acquire :
    (_rtapi_ring_detach cfgU bkOK initState 0 7).2.2 =
      [RingEv.readSlot 0, RingEv.rel LockId.ringMutex] ∧
    RingEv.acq LockId.ringMutex ∉ (_rtapi_ring_detach cfgU bkOK initState 0 7).2.2 ∧
    RingEv.acq LockId.rtapiMutex ∉ (_rtapi_ring_detach cfgU bkOK initState 0 7).2.2 ∧
    (_rtapi_ring_detach cfgU bkOK sOne 0 1).2.2.head? = some (RingEv.readSlot 0) ∧
    (_rtapi_ring_refcount cfgU sOne 0).2.head? =
      some (RingEv.acq LockId.rtapiMutex) ∧
    (_rtapi_ring_new cfgU bkOK initState 64 0 1 0).2.2.head? =
      some (RingEv.acq LockId.ringMutex) ∧
    (_rtapi_ring_attach cfgU bkOK sOneC 0 1).2.2.head? =
      some (RingEv.acq LockId.ringMutex) := by
  decide

/-- C6 counterexample: slot 0 is committed with exactly one attached module id
(bit 3), yet refcount reports 0 because its loop only scans bit indices below
RTAPI_MAX_RINGS = 3. -/
theorem C6_high_bit_not_counted :
    (sOneHigh.ring_array 0).magic = RING_MAGIC ∧
    (sOneHigh.ring_array 0).bitmap.card = 1 ∧
    (_rtapi_ring_refcount cfgU sOneHigh 0).1 = 0 := by
  decide

/-- C9 counterexample: registry exhaustion, a mapping failure on the KBUILD
attach path, a missing resident mapping, and a KBUILD attach on an
uncommitted handle all return the same code -ENOMEM; in particular the
KBUILD invalid handle is not reported as -EINVAL. -/
theorem C9_error_codes_collide :
    (_rtapi_ring_new cfgU bkOK sFull 64 0 1 0).1 = -ENOMEM ∧
    (_rtapi_ring_attach cfgK bkPtrFail sOne 0 2).1 = -ENOMEM ∧
    (_rtapi_ring_attach cfgU bkOK sOne 0 2).1 = -ENOMEM ∧
    (_rtapi_ring_attach cfgK bkOK initState 1 2).1 = -ENOMEM ∧
    (_rtapi_ring_attach cfgK bkOK initState 1 2).1 ≠ -EINVAL := by
  decide

/-- C3 counterexample: when segment creation fails, Create has already
overwritten the key, owner and segment id of the attempted slot, so the
table is not left completely untouched. -/
theorem C3_failed_create_scribbles :
    (_rtapi_ring_new cfgU bkNewFail initState 64 0 1 0).1 < 0 ∧
    (initState.ring_array 0).key = 0 ∧
    (((_rtapi_ring_new cfgU bkNewFail initState 64 0 1 0).2.1).ring_array 0).key
      = RTAPI_RING_SHM_KEY ∧
    RTAPI_RING_SHM_KEY ≠ 0 ∧
    (((_rtapi_ring_new cfgU bkNewFail initState 64 0 1 0).2.1).ring_array 0).owner
      = 1 ∧
    (initState.ring_array 0).owner = 0 := by
  decide

/-- C2: on every failure path of Create the validity tag of every slot is
unchanged (in particular the attempted slot stays Free); the tag is only
written on the success path, after the free-slot search, segment creation
and mapping have all succeeded. -/
theorem C2_create_commit_on_success (cfg : RingCfg) (bk : ShmBackend)
    (s : RingState) (a b m fl : Nat) (i : Nat)
    (h : (_rtapi_ring_new cfg bk s a b m fl).1 < 0) :
    (((_rtapi_ring_new cfg bk s a b m fl).2.1).ring_array i).magic =
      (s.ring_array i).magic := by
  rcases hf : findFree s.ring_array cfg.maxRings with _ | k
  · rw [ring_new_exhausted cfg bk s a b m fl hf]
  · by_cases hs : bk.shmem_new (RTAPI_RING_SHM_KEY + k) m
        (rtapi_ring_memsize fl a b) < 0
    · rw [ring_new_newfail cfg bk s a b m fl k hf hs]
      exact newScratch_magic s k m _ i
    · rcases hp : bk.shmem_getptr (bk.shmem_new (RTAPI_RING_SHM_KEY + k) m
          (rtapi_ring_memsize fl a b)) with _ | p
      · rw [ring_new_ptrfail cfg bk s a b m fl k hf hs hp]
        exact newScratch_magic s k m _ i
      · rw [ring_new_success cfg bk s a b m fl k p hf hs hp] at h
        simp at h
        omega

/-- C2 witness: a concrete failing Create (segment creation fails) leaves the
magic of slot 0 unchanged. -/
theorem C2_create_commit_on_success_witness :
    (_rtapi_ring_new cfgU bkNewFail initState 64 0 1 0).1 < 0 ∧
    (((_rtapi_ring_new cfgU bkNewFail initState 64 0 1 0).2.1).ring_array 0).magic
      = (initState.ring_array 0).magic :=
  ⟨by decide, C2_create_commit_on_success cfgU bkNewFail initState 64 0 1 0 0
    (by decide)⟩

theorem attachScratch_magic (s : RingState) (h : Nat) (sid : Int) (j : Nat) :
    ((attachScratch s h sid).ring_array j).magic = (s.ring_array j).magic := by
  rcases eq_or_ne j h with rfl | hj
  · rw [attachScratch_self]
  · rw [attachScratch_ne s h sid j hj]

theorem attachScratch_bitmap (s : RingState) (h : Nat) (sid : Int) (j : Nat) :
    ((attachScratch s h sid).ring_array j).bitmap = (s.ring_array j).bitmap := by
  rcases eq_or_ne j h with rfl | hj
  · rw [attachScratch_self]
  · rw [attachScratch_ne s h sid j hj]

theorem attachCommit_addr (s : RingState) (h m : Nat) (sid : Int) (p : Nat) :
    (attachCommit s h m sid p).ring_addr_array =
      Function.update s.ring_addr_array h (some p) := by
  simp [attachCommit, attachScratch, set_bitSlot, RingState.setAddr]

theorem setSlot_same (s : RingState) (i : Nat) :
    s.setSlot i (s.ring_array i) = s := by
  cases s
  simp [RingState.setSlot, Function.update_eq_self]

theorem set_bitSlot_mem (s : RingState) (h m : Nat)
    (hm : m ∈ (s.ring_array h).bitmap) : set_bitSlot s h m = s := by
  unfold set_bitSlot
  rw [Finset.insert_eq_self.mpr hm]
  have hd : ({ s.ring_array h with bitmap := (s.ring_array h).bitmap } : RingData)
      = s.ring_array h := rfl
  rw [hd]
  exact setSlot_same s h

theorem ring_refcount_count_eq_card (bm : Finset Nat) (maxR : Nat)
    (hb : ∀ x ∈ bm, x < maxR) :
    ring_refcount_count bm maxR = bm.card := by
  unfold ring_refcount_count
  congr 1
  apply Finset.ext
  intro x
  simp only [Finset.mem_filter, Finset.mem_range]
  exact ⟨fun hx => hx.2, fun hx => ⟨hb x hx, hx⟩⟩

theorem ring_refcount_count_nonempty (bm : Finset Nat) (maxR : Nat)
    (h : ring_refcount_count bm maxR ≠ 0) : bm.Nonempty := by
  unfold ring_refcount_count at h
  obtain ⟨x, hx⟩ := Finset.card_pos.mp (Nat.pos_of_ne_zero h)
  exact ⟨x, (Finset.mem_filter.mp hx).2⟩

theorem ring_refcount_count_empty (maxR : Nat) :
    ring_refcount_count ∅ maxR = 0 := by
  simp [ring_refcount_count]

/-- C10: on a committed handle Detach never reports a membership error: for
every module id, member of the attacher set or not, it returns 0, the slot
bitmap afterwards is the previous bitmap with the caller bit erased, and the
slot is freed exactly when the refcount loop over the erased bitmap counts
zero. -/
theorem C10_detach_total (cfg : RingCfg) (bk : ShmBackend) (s : RingState)
    (handle : Int) (m : Nat)
    (hr : ¬ (handle < 0 ∨ (cfg.maxRings : Int) ≤ handle))
    (hm : (s.ring_array handle.toNat).magic = RING_MAGIC) :
    (_rtapi_ring_detach cfg bk s handle m).1 = 0 ∧
    (((_rtapi_ring_detach cfg bk s handle m).2.1).ring_array handle.toNat).bitmap
      = (s.ring_array handle.toNat).bitmap.erase m ∧
    ((((_rtapi_ring_detach cfg bk s handle m).2.1).ring_array handle.toNat).magic
        ≠ RING_MAGIC ↔
      ring_refcount_count ((s.ring_array handle.toNat).bitmap.erase m)
        cfg.maxRings = 0) := by
  by_cases hc : ring_refcount_count ((s.ring_array handle.toNat).bitmap.erase m)
      cfg.maxRings = 0
  · rw [ring_detach_freed cfg bk s handle m hr hm hc]
    refine ⟨rfl, ?_, ?_⟩
    · rw [freeSlot_self, clear_bitSlot_self]
    · rw [freeSlot_self]
      exact ⟨fun _ => hc,
             fun _ hmagic => absurd (show (0 : Nat) = RING_MAGIC from hmagic)
               (by decide)⟩
  · rw [ring_detach_retained cfg bk s handle m hr hm hc]
    refine ⟨rfl, ?_, ?_⟩
    · rw [clear_bitSlot_self]
    · rw [clear_bitSlot_self]
      exact ⟨fun hne => absurd hm hne, fun h0 => absurd h0 hc⟩

/-- C10 witness: detaching module 2, which is not attached, from the
committed slot 0 returns 0, erases nothing, and retains the slot. -/
theorem C10_detach_total_witness :
    (_rtapi_ring_detach cfgU bkOK sOne 0 2).1 = 0 ∧
    (((_rtapi_ring_detach cfgU bkOK sOne 0 2).2.1).ring_array (0 : Int).toNat).bitmap
      = (sOne.ring_array (0 : Int).toNat).bitmap.erase 2 ∧
    ((((_rtapi_ring_detach cfgU bkOK sOne 0 2).2.1).ring_array (0 : Int).toNat).magic
        ≠ RING_MAGIC ↔
      ring_refcount_count ((sOne.ring_array (0 : Int).toNat).bitmap.erase 2)
        cfgU.maxRings = 0) :=
  C10_detach_total cfgU bkOK sOne 0 2 (by decide) (by decide)

/-- C6 amended: refcount returns -EINVAL for an out-of-range handle or a free
slot; on a committed slot it returns the number of attacher bits with index
below RTAPI_MAX_RINGS, which equals the cardinality of the attacher set only
when every attached module id is below RTAPI_MAX_RINGS. -/
theorem C6_refcount_counted_range (cfg : RingCfg) (s : RingState)
    (handle : Int) :
    (handle < 0 ∨ (cfg.maxRings : Int) ≤ handle →
      (_rtapi_ring_refcount cfg s handle).1 = -EINVAL) ∧
    (¬ (handle < 0 ∨ (cfg.maxRings : Int) ≤ handle) →
      ((s.ring_array handle.toNat).magic ≠ RING_MAGIC →
        (_rtapi_ring_refcount cfg s handle).1 = -EINVAL) ∧
      ((s.ring_array handle.toNat).magic = RING_MAGIC →
        (_rtapi_ring_refcount cfg s handle).1 =
          (ring_refcount_count (s.ring_array handle.toNat).bitmap cfg.maxRings
            : Int) ∧
        ((∀ x ∈ (s.ring_array handle.toNat).bitmap, x < cfg.maxRings) →
          (_rtapi_ring_refcount cfg s handle).1 =
            ((s.ring_array handle.toNat).bitmap.card : Int)))) := by
  refine ⟨fun hr => ?_, fun hr => ⟨fun hm => ?_, fun hm => ⟨?_, fun hb => ?_⟩⟩⟩
  · rw [refcount_oor cfg s handle hr]
  · rw [refcount_free cfg s handle hr hm]
  · rw [refcount_committed cfg s handle hr hm]
  · rw [refcount_committed cfg s handle hr hm,
        ring_refcount_count_eq_card _ _ hb]

/-- C6 witness: on the committed slot 0 whose single attacher bit 1 is in the
counted range, refcount returns the full cardinality 1. -/
theorem C6_refcount_counted_range_witness :
    (_rtapi_ring_refcount cfgU sOne 0).1 =
      (((sOne.ring_array (0 : Int).toNat).bitmap.card : Nat) : Int) :=
  (((C6_refcount_counted_range cfgU sOne 0).2 (by decide)).2 (by decide)).2
    (by decide)

/-- C3 amended: after a failed Create no slot's validity tag or attacher set
has changed and the pointer cache is untouched; every slot other than the
single free slot the call attempted is entirely unchanged (that slot may
have received scratch writes to key, owner and segment id). -/
theorem C3_create_fail_frame (cfg : RingCfg) (bk : ShmBackend) (s : RingState)
    (a b m fl : Nat) (i j : Nat)
    (h : (_rtapi_ring_new cfg bk s a b m fl).1 < 0) :
    ((((_rtapi_ring_new cfg bk s a b m fl).2.1).ring_array j).magic
        = (s.ring_array j).magic ∧
     (((_rtapi_ring_new cfg bk s a b m fl).2.1).ring_array j).bitmap
        = (s.ring_array j).bitmap ∧
     ((_rtapi_ring_new cfg bk s a b m fl).2.1).ring_addr_array
        = s.ring_addr_array) ∧
    (findFree s.ring_array cfg.maxRings = some i → j ≠ i →
      ((_rtapi_ring_new cfg bk s a b m fl).2.1).ring_array j
        = s.ring_array j) := by
  rcases hf : findFree s.ring_array cfg.maxRings with _ | k
  · rw [ring_new_exhausted cfg bk s a b m fl hf]
    exact ⟨⟨rfl, rfl, rfl⟩, fun _ _ => rfl⟩
  · have hki : some k = some i → j ≠ i → j ≠ k := by
      intro hsome hji
      injection hsome with hk2
      rw [hk2]
      exact hji
    by_cases hs : bk.shmem_new (RTAPI_RING_SHM_KEY + k) m
        (rtapi_ring_memsize fl a b) < 0
    · rw [ring_new_newfail cfg bk s a b m fl k hf hs]
      exact ⟨⟨newScratch_magic s k m _ j, newScratch_bitmap s k m _ j, rfl⟩,
             fun hsome hji => newScratch_ne s k m _ j (hki hsome hji)⟩
    · rcases hp : bk.shmem_getptr (bk.shmem_new (RTAPI_RING_SHM_KEY + k) m
          (rtapi_ring_memsize fl a b)) with _ | p
      · rw [ring_new_ptrfail cfg bk s a b m fl k hf hs hp]
        exact ⟨⟨newScratch_magic s k m _ j, newScratch_bitmap s k m _ j, rfl⟩,
               fun hsome hji => newScratch_ne s k m _ j (hki hsome hji)⟩
      · rw [ring_new_success cfg bk s a b m fl k p hf hs hp] at h
        simp at h
        omega

/-- C3 witness: a concrete failing Create (segment creation fails on the
empty table) leaves magic, bitmap and cache of slot 1 unchanged, and slot 1
(distinct from the attempted slot 0) entirely unchanged. -/
theorem C3_create_fail_frame_witness :
    ((((_rtapi_ring_new cfgU bkNewFail initState 64 0 1 0).2.1).ring_array 1).magic
        = (initState.ring_array 1).magic ∧
     (((_rtapi_ring_new cfgU bkNewFail initState 64 0 1 0).2.1).ring_array 1).bitmap
        = (initState.ring_array 1).bitmap ∧
     ((_rtapi_ring_new cfgU bkNewFail initState 64 0 1 0).2.1).ring_addr_array
        = initState.ring_addr_array) ∧
    (findFree initState.ring_array cfgU.maxRings = some 0 → (1 : Nat) ≠ 0 →
      ((_rtapi_ring_new cfgU bkNewFail initState 64 0 1 0).2.1).ring_array 1
        = initState.ring_array 1) :=
  C3_create_fail_frame cfgU bkNewFail initState 64 0 1 0 0 1 (by decide)

/-- C9 amended: the code exposes only two error codes, not four: Create
fails only with -ENOMEM (also for registry exhaustion), refcount and detach
fail only with -EINVAL, and attach failures are -EINVAL or -ENOMEM (backend
failures, the missing resident mapping and the KBUILD uncommitted handle all
collapse to -ENOMEM). -/
theorem C9_errno_partition (cfg : RingCfg) (bk : ShmBackend) (s : RingState)
    (handle : Int) (a b m fl : Nat) :
    ((_rtapi_ring_new cfg bk s a b m fl).1 < 0 →
      (_rtapi_ring_new cfg bk s a b m fl).1 = -ENOMEM) ∧
    ((_rtapi_ring_refcount cfg s handle).1 < 0 →
      (_rtapi_ring_refcount cfg s handle).1 = -EINVAL) ∧
    ((_rtapi_ring_detach cfg bk s handle m).1 < 0 →
      (_rtapi_ring_detach cfg bk s handle m).1 = -EINVAL) ∧
    ((_rtapi_ring_attach cfg bk s handle m).1 < 0 →
      ((_rtapi_ring_attach cfg bk s handle m).1 = -EINVAL ∨
       (_rtapi_ring_attach cfg bk s handle m).1 = -ENOMEM)) := by
  refine ⟨?_, ?_, ?_, ?_⟩
  · intro h
    rcases hf : findFree s.ring_array cfg.maxRings with _ | k
    · rw [ring_new_exhausted cfg bk s a b m fl hf]
    · by_cases hs : bk.shmem_new (RTAPI_RING_SHM_KEY + k) m
          (rtapi_ring_memsize fl a b) < 0
      · rw [ring_new_newfail cfg bk s a b m fl k hf hs]
      · rcases hp : bk.shmem_getptr (bk.shmem_new (RTAPI_RING_SHM_KEY + k) m
            (rtapi_ring_memsize fl a b)) with _ | p
        · rw [ring_new_ptrfail cfg bk s a b m fl k hf hs hp]
        · rw [ring_new_success cfg bk s a b m fl k p hf hs hp] at h
          simp at h
          omega
  · intro h
    by_cases hr : handle < 0 ∨ (cfg.maxRings : Int) ≤ handle
    · rw [refcount_oor cfg s handle hr]
    · by_cases hm : (s.ring_array handle.toNat).magic = RING_MAGIC
      · rw [refcount_committed cfg s handle hr hm] at h
        simp at h
        omega
      · rw [refcount_free cfg s handle hr hm]
  · intro h
    by_cases hr : handle < 0 ∨ (cfg.maxRings : Int) ≤ handle
    · rw [ring_detach_oor cfg bk s handle m hr]
    · by_cases hm : (s.ring_array handle.toNat).magic = RING_MAGIC
      · by_cases hc : ring_refcount_count
            ((s.ring_array handle.toNat).bitmap.erase m) cfg.maxRings = 0
        · rw [ring_detach_freed cfg bk s handle m hr hm hc] at h
          exact absurd (show (0 : Int) < 0 from h) (by decide)
        · rw [ring_detach_retained cfg bk s handle m hr hm hc] at h
          exact absurd (show (0 : Int) < 0 from h) (by decide)
      · rw [ring_detach_free cfg bk s handle m hr hm]
  · intro h
    by_cases hr : handle < 0 ∨ (cfg.maxRings : Int) ≤ handle
    · rw [ring_attach_oor cfg bk s handle m hr]
      left
      rfl
    · by_cases hm : (s.ring_array handle.toNat).magic = RING_MAGIC
      · cases hk : cfg.kbuild with
        | true =>
            rcases hp : bk.shmem_getptr (s.ring_array handle.toNat).shmem_id
              with _ | p
            · rw [ring_attach_kbuild_ptrfail cfg bk s handle m hr hm hk hp]
              right
              rfl
            · rw [ring_attach_kbuild_ok cfg bk s handle m p hr hm hk hp] at h
              exact absurd (show (0 : Int) < 0 from h) (by decide)
        | false =>
            rcases hp : s.ring_addr_array handle.toNat with _ | p
            · rw [ring_attach_resident_null cfg bk s handle m hr hm hk hp]
              right
              rfl
            · rw [ring_attach_resident_ok cfg bk s handle m p hr hm hk hp] at h
              exact absurd (show (0 : Int) < 0 from h) (by decide)
      · cases hk : cfg.kbuild with
        | true =>
            rw [ring_attach_kbuild_nonexistent cfg bk s handle m hr hm hk]
            right
            rfl
        | false =>
            cases he : bk.shm_exists (RTAPI_RING_SHM_KEY + handle.toNat) with
            | false =>
                rw [ring_attach_noseg cfg bk s handle m hr hm hk he]
                left
                rfl
            | true =>
                by_cases hs : bk.shmem_new (RTAPI_RING_SHM_KEY + handle.toNat)
                    m 0 < 0
                · rw [ring_attach_ext_newfail cfg bk s handle m hr hm hk he hs]
                  right
                  rfl
                · rcases hp : bk.shmem_getptr
                      (bk.shmem_new (RTAPI_RING_SHM_KEY + handle.toNat) m 0)
                      with _ | p
                  · rw [ring_attach_ext_ptrfail cfg bk s handle m hr hm hk he
                        hs hp]
                    right
                    rfl
                  · rw [ring_attach_ext_ok cfg bk s handle m p hr hm hk he
                        hs hp] at h
                    exact absurd (show (0 : Int) < 0 from h) (by decide)

/-- C9 amended witness: at handle 5 on the empty table with a failing
backend, Create reports -ENOMEM while refcount, detach and attach report
-EINVAL. -/
theorem C9_errno_partition_witness :
    (_rtapi_ring_new cfgU bkNewFail initState 64 0 1 0).1 = -ENOMEM ∧
    (_rtapi_ring_refcount cfgU initState 5).1 = -EINVAL ∧
    (_rtapi_ring_detach cfgU bkNewFail initState 5 1).1 = -EINVAL ∧
    ((_rtapi_ring_attach cfgU bkNewFail initState 5 1).1 = -EINVAL ∨
     (_rtapi_ring_attach cfgU bkNewFail initState 5 1).1 = -ENOMEM) :=
  ⟨(C9_errno_partition cfgU bkNewFail initState 5 64 0 1 0).1 (by decide),
   (C9_errno_partition cfgU bkNewFail initState 5 64 0 1 0).2.1 (by decide),
   (C9_errno_partition cfgU bkNewFail initState 5 64 0 1 0).2.2.1 (by decide),
   (C9_errno_partition cfgU bkNewFail initState 5 64 0 1 0).2.2.2 (by decide)⟩

/-- C7: a second Attach by the same caller on the same handle, after a first
successful Attach, succeeds, leaves the registry state (and hence the
attacher set) identical, and leaves refcount unchanged. -/
theorem C7_attach_idempotent (cfg : RingCfg) (bk : ShmBackend) (s : RingState)
    (handle : Int) (m : Nat)
    (hsucc : (_rtapi_ring_attach cfg bk s handle m).1 = 0) :
    (_rtapi_ring_attach cfg bk ((_rtapi_ring_attach cfg bk s handle m).2.1)
       handle m).1 = 0 ∧
    (_rtapi_ring_attach cfg bk ((_rtapi_ring_attach cfg bk s handle m).2.1)
       handle m).2.1 = (_rtapi_ring_attach cfg bk s handle m).2.1 ∧
    (_rtapi_ring_refcount cfg
       (_rtapi_ring_attach cfg bk ((_rtapi_ring_attach cfg bk s handle m).2.1)
          handle m).2.1 handle).1 =
      (_rtapi_ring_refcount cfg ((_rtapi_ring_attach cfg bk s handle m).2.1)
        handle).1 := by
  by_cases hr : handle < 0 ∨ (cfg.maxRings : Int) ≤ handle
  · rw [ring_attach_oor cfg bk s handle m hr] at hsucc
    exact absurd (show -EINVAL = (0 : Int) from hsucc) (by decide)
  · by_cases hm : (s.ring_array handle.toNat).magic = RING_MAGIC
    · cases hk : cfg.kbuild with
      | true =>
          rcases hp : bk.shmem_getptr (s.ring_array handle.toNat).shmem_id
            with _ | p
          · rw [ring_attach_kbuild_ptrfail cfg bk s handle m hr hm hk hp]
              at hsucc
            exact absurd (show -ENOMEM = (0 : Int) from hsucc) (by decide)
          · rw [ring_attach_kbuild_ok cfg bk s handle m p hr hm hk hp]
            dsimp only
            have hm1 : ((set_bitSlot s handle.toNat m).ring_array
                handle.toNat).magic = RING_MAGIC := by
              rw [set_bitSlot_self]
              exact hm
            have hp1 : bk.shmem_getptr ((set_bitSlot s handle.toNat m).ring_array
                handle.toNat).shmem_id = some p := by
              rw [set_bitSlot_self]
              exact hp
            rw [ring_attach_kbuild_ok cfg bk (set_bitSlot s handle.toNat m)
              handle m p hr hm1 hk hp1]
            dsimp only
            have hmem : m ∈ ((set_bitSlot s handle.toNat m).ring_array
                handle.toNat).bitmap := by
              rw [set_bitSlot_self]
              exact Finset.mem_insert_self m _
            rw [set_bitSlot_mem _ _ _ hmem]
            exact ⟨rfl, rfl, rfl⟩
      | false =>
          rcases hp : s.ring_addr_array handle.toNat with _ | p
          · rw [ring_attach_resident_null cfg bk s handle m hr hm hk hp]
              at hsucc
            exact absurd (show -ENOMEM = (0 : Int) from hsucc) (by decide)
          · rw [ring_attach_resident_ok cfg bk s handle m p hr hm hk hp]
            dsimp only
            have hm1 : ((set_bitSlot s handle.toNat m).ring_array
                handle.toNat).magic = RING_MAGIC := by
              rw [set_bitSlot_self]
              exact hm
            have hp1 : (set_bitSlot s handle.toNat m).ring_addr_array
                handle.toNat = some p := by
              rw [set_bitSlot, setSlot_addr]
              exact hp
            rw [ring_attach_resident_ok cfg bk (set_bitSlot s handle.toNat m)
              handle m p hr hm1 hk hp1]
            dsimp only
            have hmem : m ∈ ((set_bitSlot s handle.toNat m).ring_array
                handle.toNat).bitmap := by
              rw [set_bitSlot_self]
              exact Finset.mem_insert_self m _
            rw [set_bitSlot_mem _ _ _ hmem]
            exact ⟨rfl, rfl, rfl⟩
    · cases hk : cfg.kbuild with
      | true =>
          rw [ring_attach_kbuild_nonexistent cfg bk s handle m hr hm hk]
            at hsucc
          exact absurd (show -ENOMEM = (0 : Int) from hsucc) (by decide)
      | false =>
          cases he : bk.shm_exists (RTAPI_RING_SHM_KEY + handle.toNat) with
          | false =>
              rw [ring_attach_noseg cfg bk s handle m hr hm hk he] at hsucc
              exact absurd (show -EINVAL = (0 : Int) from hsucc) (by decide)
          | true =>
              by_cases hs : bk.shmem_new (RTAPI_RING_SHM_KEY + handle.toNat)
                  m 0 < 0
              · rw [ring_attach_ext_newfail cfg bk s handle m hr hm hk he hs]
                  at hsucc
                exact absurd (show -ENOMEM = (0 : Int) from hsucc) (by decide)
              · rcases hp : bk.shmem_getptr
                    (bk.shmem_new (RTAPI_RING_SHM_KEY + handle.toNat) m 0)
                    with _ | p
                · rw [ring_attach_ext_ptrfail cfg bk s handle m hr hm hk he
                      hs hp] at hsucc
                  exact absurd (show -ENOMEM = (0 : Int) from hsucc) (by decide)
                · rw [ring_attach_ext_ok cfg bk s handle m p hr hm hk he hs hp]
                  dsimp only
                  have hm1 : ((attachCommit s handle.toNat m
                      (bk.shmem_new (RTAPI_RING_SHM_KEY + handle.toNat) m 0)
                      p).ring_array handle.toNat).magic = RING_MAGIC := by
                    rw [attachCommit_self]
                  have hp1 : (attachCommit s handle.toNat m
                      (bk.shmem_new (RTAPI_RING_SHM_KEY + handle.toNat) m 0)
                      p).ring_addr_array handle.toNat = some p := by
                    rw [attachCommit_addr]
                    exact Function.update_same _ _ _
                  rw [ring_attach_resident_ok cfg bk (attachCommit s
                    handle.toNat m (bk.shmem_new (RTAPI_RING_SHM_KEY +
                    handle.toNat) m 0) p) handle m p hr hm1 hk hp1]
                  dsimp only
                  have hmem : m ∈ ((attachCommit s handle.toNat m
                      (bk.shmem_new (RTAPI_RING_SHM_KEY + handle.toNat) m 0)
                      p).ring_array handle.toNat).bitmap := by
                    rw [attachCommit_self]
                    exact Finset.mem_insert_self m _
                  rw [set_bitSlot_mem _ _ _ hmem]
                  exact ⟨rfl, rfl, rfl⟩

/-- C7 witness: a concrete second Attach of module 2 on the committed handle
0 returns 0 and leaves the state of the first Attach unchanged. -/
theorem C7_attach_idempotent_witness :
    (_rtapi_ring_attach cfgU bkOK ((_rtapi_ring_attach cfgU bkOK sOneC 0 2).2.1)
       0 2).1 = 0 ∧
    (_rtapi_ring_attach cfgU bkOK ((_rtapi_ring_attach cfgU bkOK sOneC 0 2).2.1)
       0 2).2.1 = (_rtapi_ring_attach cfgU bkOK sOneC 0 2).2.1 ∧
    (_rtapi_ring_refcount cfgU
       (_rtapi_ring_attach cfgU bkOK ((_rtapi_ring_attach cfgU bkOK sOneC 0 2).2.1)
          0 2).2.1 0).1 =
      (_rtapi_ring_refcount cfgU ((_rtapi_ring_attach cfgU bkOK sOneC 0 2).2.1)
        0).1 :=
  C7_attach_idempotent cfgU bkOK sOneC 0 2 (by decide)

/-- C5: detaching the only attacher of a committed slot succeeds (for every
backend, including one whose segment deletion fails), emits a backend
deletion of that slot's segment, clears the tag; afterwards refcount and a
second identical detach return -EINVAL, and a Create under an all-succeeding
backend reuses the handle when every lower slot is still committed. -/
theorem C5_detach_last_frees (cfg : RingCfg) (bk bk2 : ShmBackend)
    (s : RingState) (h m a b m2 fl : Nat)
    (hmr : h < cfg.maxRings)
    (hm : (s.ring_array h).magic = RING_MAGIC)
    (hb : (s.ring_array h).bitmap = {m})
    (hbk2 : bk2.AllOk)
    (hpre : ∀ j, j < h → (s.ring_array j).magic = RING_MAGIC) :
    (_rtapi_ring_detach cfg bk s (h : Int) m).1 = 0 ∧
    RingEv.shmemDelete (s.ring_array h).shmem_id (s.ring_array h).owner
      ∈ (_rtapi_ring_detach cfg bk s (h : Int) m).2.2 ∧
    (((_rtapi_ring_detach cfg bk s (h : Int) m).2.1).ring_array h).magic = 0 ∧
    (_rtapi_ring_refcount cfg ((_rtapi_ring_detach cfg bk s (h : Int) m).2.1)
      (h : Int)).1 = -EINVAL ∧
    (_rtapi_ring_detach cfg bk ((_rtapi_ring_detach cfg bk s (h : Int) m).2.1)
      (h : Int) m).1 = -EINVAL ∧
    (_rtapi_ring_new cfg bk2 ((_rtapi_ring_detach cfg bk s (h : Int) m).2.1)
      a b m2 fl).1 = (h : Int) := by
  have hr : ¬ ((h : Int) < 0 ∨ (cfg.maxRings : Int) ≤ (h : Int)) := by omega
  have ht : ((h : Int)).toNat = h := Int.toNat_natCast h
  have hm' : (s.ring_array ((h : Int)).toNat).magic = RING_MAGIC := by
    rw [ht]
    exact hm
  have hc : ring_refcount_count
      ((s.ring_array ((h : Int)).toNat).bitmap.erase m) cfg.maxRings = 0 := by
    rw [ht, hb, Finset.erase_singleton, ring_refcount_count_empty]
  rw [ring_detach_freed cfg bk s (h : Int) m hr hm' hc]
  rw [ht]
  dsimp only
  have hfree : ((freeSlot (clear_bitSlot s h m) h).ring_array h).magic
      ≠ RING_MAGIC := by
    rw [freeSlot_self]
    exact fun hh => absurd (show (0 : Nat) = RING_MAGIC from hh) (by decide)
  have hfree' : ((freeSlot (clear_bitSlot s h m) h).ring_array
      ((h : Int)).toNat).magic ≠ RING_MAGIC := by
    rw [ht]
    exact hfree
  refine ⟨rfl, ?_, ?_, ?_, ?_, ?_⟩
  · simp
  · rw [freeSlot_self]
  · rw [refcount_free cfg _ (h : Int) hr hfree']
  · rw [ring_detach_free cfg bk _ (h : Int) m hr hfree']
  · have hprev : ∀ j, j < h →
        ((freeSlot (clear_bitSlot s h m) h).ring_array j).magic = RING_MAGIC := by
      intro j hj
      rw [freeSlot_ne _ _ _ (Nat.ne_of_lt hj),
          clear_bitSlot_ne _ _ _ _ (Nat.ne_of_lt hj)]
      exact hpre j hj
    have hf2 : findFree (freeSlot (clear_bitSlot s h m) h).ring_array
        cfg.maxRings = some h :=
      findFree_eq_some _ _ _ hmr hfree hprev
    have hs2 : ¬ bk2.shmem_new (RTAPI_RING_SHM_KEY + h) m2
        (rtapi_ring_memsize fl a b) < 0 := not_lt.mpr (hbk2.1 _ _ _)
    obtain ⟨p2, hp2⟩ := Option.isSome_iff_exists.mp (hbk2.2
      (bk2.shmem_new (RTAPI_RING_SHM_KEY + h) m2 (rtapi_ring_memsize fl a b)))
    rw [ring_new_success cfg bk2 _ a b m2 fl h p2 hf2 hs2 hp2]

/-- C5 witness: detaching module 1, the only attacher of slot 0, with a
backend whose deletion fails, still succeeds and frees the slot; refcount
and a repeated detach then return -EINVAL and Create reuses handle 0. -/
theorem C5_detach_last_frees_witness :
    (_rtapi_ring_detach cfgU bkDelFail sOne 0 1).1 = 0 ∧
    RingEv.shmemDelete (sOne.ring_array 0).shmem_id (sOne.ring_array 0).owner
      ∈ (_rtapi_ring_detach cfgU bkDelFail sOne 0 1).2.2 ∧
    (((_rtapi_ring_detach cfgU bkDelFail sOne 0 1).2.1).ring_array 0).magic = 0 ∧
    (_rtapi_ring_refcount cfgU ((_rtapi_ring_detach cfgU bkDelFail sOne 0 1).2.1)
      0).1 = -EINVAL ∧
    (_rtapi_ring_detach cfgU bkDelFail
      ((_rtapi_ring_detach cfgU bkDelFail sOne 0 1).2.1) 0 1).1 = -EINVAL ∧
    (_rtapi_ring_new cfgU bkOK ((_rtapi_ring_detach cfgU bkDelFail sOne 0 1).2.1)
      64 0 2 0).1 = 0 :=
  C5_detach_last_frees cfgU bkDelFail bkOK sOne 0 1 64 0 2 0 (by decide)
    (by decide) (by decide)
    ⟨fun _ _ _ => (by decide : (0 : Int) ≤ 7), fun _ => rfl⟩
    (fun j hj => absurd hj (by omega))

theorem createRun_succ (cfg : RingCfg) (bk : ShmBackend) (a b m fl : Nat)
    (s : RingState) (n : Nat) :
    createRun cfg bk a b m fl s (n + 1) =
      ((_rtapi_ring_new cfg bk s a b m fl).1 ::
        (createRun cfg bk a b m fl
          ((_rtapi_ring_new cfg bk s a b m fl).2.1) n).1,
       (createRun cfg bk a b m fl
         ((_rtapi_ring_new cfg bk s a b m fl).2.1) n).2) := rfl

theorem createRun_spec (cfg : RingCfg) (bk : ShmBackend) (a b m fl : Nat)
    (hbk : bk.AllOk) :
    ∀ (n k : Nat) (s : RingState), k + n ≤ cfg.maxRings →
      (∀ j, j < k → (s.ring_array j).magic = RING_MAGIC) →
      (∀ j, k ≤ j → (s.ring_array j).magic = 0) →
      (createRun cfg bk a b m fl s n).1
        = (List.range' k n).map (fun x : Nat => (x : Int)) ∧
      (∀ j, j < k + n →
        (((createRun cfg bk a b m fl s n).2).ring_array j).magic
          = RING_MAGIC) ∧
      (∀ j, k + n ≤ j →
        (((createRun cfg bk a b m fl s n).2).ring_array j).magic = 0) := by
  intro n
  induction n with
  | zero =>
      intro k s hkn hlow hhigh
      exact ⟨rfl, fun j hj => hlow j (by omega), fun j hj => hhigh j (by omega)⟩
  | succ n ih =>
      intro k s hkn hlow hhigh
      have h0 : (s.ring_array k).magic = 0 := hhigh k (le_refl k)
      have hfreek : (s.ring_array k).magic ≠ RING_MAGIC := by
        rw [h0]
        decide
      have hf : findFree s.ring_array cfg.maxRings = some k :=
        findFree_eq_some _ _ _ (by omega) hfreek (fun j hj => hlow j hj)
      have hs : ¬ bk.shmem_new (RTAPI_RING_SHM_KEY + k) m
          (rtapi_ring_memsize fl a b) < 0 := not_lt.mpr (hbk.1 _ _ _)
      obtain ⟨p, hp⟩ := Option.isSome_iff_exists.mp (hbk.2
        (bk.shmem_new (RTAPI_RING_SHM_KEY + k) m (rtapi_ring_memsize fl a b)))
      rw [createRun_succ cfg bk a b m fl s n,
          ring_new_success cfg bk s a b m fl k p hf hs hp]
      dsimp only
      have hlow2 : ∀ j, j < k + 1 →
          ((newCommit cfg s k m (bk.shmem_new (RTAPI_RING_SHM_KEY + k) m
            (rtapi_ring_memsize fl a b)) p).ring_array j).magic = RING_MAGIC := by
        intro j hj
        rcases eq_or_ne j k with rfl | hjk
        · rw [newCommit_self]
        · rw [newCommit_ne cfg s k m _ p j hjk]
          exact hlow j (by omega)
      have hhigh2 : ∀ j, k + 1 ≤ j →
          ((newCommit cfg s k m (bk.shmem_new (RTAPI_RING_SHM_KEY + k) m
            (rtapi_ring_memsize fl a b)) p).ring_array j).magic = 0 := by
        intro j hj
        rw [newCommit_ne cfg s k m _ p j (by omega)]
        exact hhigh j (by omega)
      obtain ⟨ih1, ih2, ih3⟩ := ih (k + 1)
        (newCommit cfg s k m (bk.shmem_new (RTAPI_RING_SHM_KEY + k) m
          (rtapi_ring_memsize fl a b)) p) (by omega) hlow2 hhigh2
      refine ⟨?_, fun j hj => ih2 j (by omega), fun j hj => ih3 j (by omega)⟩
      rw [List.range'_succ, List.map_cons, ih1]

/-- C4: Create reserves the first slot whose tag is not valid and returns
its index; from the empty table, RTAPI_MAX_RINGS successful Creates under an
all-succeeding backend return the handles 0, 1, ..., RTAPI_MAX_RINGS - 1 in
order, and the next Create returns -ENOMEM leaving the table unchanged. -/
theorem C4_create_first_free (cfg : RingCfg) (bk : ShmBackend) (a b m fl : Nat)
    (hbk : bk.AllOk) :
    (∀ (s : RingState) (k : Nat),
       (_rtapi_ring_new cfg bk s a b m fl).1 = (k : Int) →
       k < cfg.maxRings ∧ (s.ring_array k).magic ≠ RING_MAGIC ∧
         ∀ j, j < k → (s.ring_array j).magic = RING_MAGIC) ∧
    (createRun cfg bk a b m fl initState cfg.maxRings).1
      = (List.range cfg.maxRings).map (fun x : Nat => (x : Int)) ∧
    (_rtapi_ring_new cfg bk
      (createRun cfg bk a b m fl initState cfg.maxRings).2 a b m fl).1
      = -ENOMEM ∧
    (_rtapi_ring_new cfg bk
      (createRun cfg bk a b m fl initState cfg.maxRings).2 a b m fl).2.1
      = (createRun cfg bk a b m fl initState cfg.maxRings).2 := by
  obtain ⟨hrun, hcomm, _⟩ := createRun_spec cfg bk a b m fl hbk cfg.maxRings 0
    initState (by omega) (fun j hj => absurd hj (by omega)) (fun j _ => rfl)
  have hfull : findFree
      ((createRun cfg bk a b m fl initState cfg.maxRings).2).ring_array
      cfg.maxRings = none :=
    findFree_eq_none _ _ (fun j hj => hcomm j (by omega))
  refine ⟨?_, ?_, ?_, ?_⟩
  · intro s k hres
    rcases hf : findFree s.ring_array cfg.maxRings with _ | k2
    · rw [ring_new_exhausted cfg bk s a b m fl hf] at hres
      have : (-ENOMEM : Int) = (k : Int) := hres
      rw [show (ENOMEM : Int) = 12 from rfl] at this
      omega
    · have hs : ¬ bk.shmem_new (RTAPI_RING_SHM_KEY + k2) m
          (rtapi_ring_memsize fl a b) < 0 := not_lt.mpr (hbk.1 _ _ _)
      obtain ⟨p, hp⟩ := Option.isSome_iff_exists.mp (hbk.2
        (bk.shmem_new (RTAPI_RING_SHM_KEY + k2) m (rtapi_ring_memsize fl a b)))
      rw [ring_new_success cfg bk s a b m fl k2 p hf hs hp] at hres
      have hkk : (k2 : Int) = (k : Int) := hres
      have hkk2 : k2 = k := by exact_mod_cast hkk
      rw [hkk2] at hf
      exact findFree_some_spec s.ring_array cfg.maxRings k hf
  · rw [hrun, List.range_eq_range']
  · rw [ring_new_exhausted cfg bk _ a b m fl hfull]
  · rw [ring_new_exhausted cfg bk _ a b m fl hfull]

/-- C4 witness: with RTAPI_MAX_RINGS = 3 the three Creates from the empty
table return 0, 1, 2 and the fourth returns -ENOMEM. -/
theorem C4_create_first_free_witness :
    (createRun cfgU bkOK 64 0 1 0 initState cfgU.maxRings).1
      = (List.range cfgU.maxRings).map (fun x : Nat => (x : Int)) ∧
    (_rtapi_ring_new cfgU bkOK
      (createRun cfgU bkOK 64 0 1 0 initState cfgU.maxRings).2 64 0 1 0).1
      = -ENOMEM :=
  ⟨(C4_create_first_free cfgU bkOK 64 0 1 0
      ⟨fun _ _ _ => (by decide : (0 : Int) ≤ 7), fun _ => rfl⟩).2.1,
   (C4_create_first_free cfgU bkOK 64 0 1 0
      ⟨fun _ _ _ => (by decide : (0 : Int) ≤ 7), fun _ => rfl⟩).2.2.1⟩

theorem inv_step_new (cfg : RingCfg) (bk : ShmBackend) (s : RingState)
    (a b m fl : Nat) (hInv : TagNonEmptyInv s) :
    TagNonEmptyInv ((_rtapi_ring_new cfg bk s a b m fl).2.1) := by
  rcases hf : findFree s.ring_array cfg.maxRings with _ | k
  · rw [ring_new_exhausted cfg bk s a b m fl hf]
    exact hInv
  · by_cases hs : bk.shmem_new (RTAPI_RING_SHM_KEY + k) m
        (rtapi_ring_memsize fl a b) < 0
    · rw [ring_new_newfail cfg bk s a b m fl k hf hs]
      intro j hj
      dsimp only at hj ⊢
      rw [newScratch_magic] at hj
      rw [newScratch_bitmap]
      exact hInv j hj
    · rcases hp : bk.shmem_getptr (bk.shmem_new (RTAPI_RING_SHM_KEY + k) m
          (rtapi_ring_memsize fl a b)) with _ | p
      · rw [ring_new_ptrfail cfg bk s a b m fl k hf hs hp]
        intro j hj
        dsimp only at hj ⊢
        rw [newScratch_magic] at hj
        rw [newScratch_bitmap]
        exact hInv j hj
      · rw [ring_new_success cfg bk s a b m fl k p hf hs hp]
        intro j hj
        dsimp only at hj ⊢
        rcases eq_or_ne j k with rfl | hjk
        · rw [newCommit_self]
          exact Finset.insert_nonempty _ _
        · rw [newCommit_ne cfg s k m _ p j hjk] at hj ⊢
          exact hInv j hj

theorem inv_step_attach (cfg : RingCfg) (bk : ShmBackend) (s : RingState)
    (handle : Int) (m : Nat) (hInv : TagNonEmptyInv s) :
    TagNonEmptyInv ((_rtapi_ring_attach cfg bk s handle m).2.1) := by
  by_cases hr : handle < 0 ∨ (cfg.maxRings : Int) ≤ handle
  · rw [ring_attach_oor cfg bk s handle m hr]
    exact hInv
  · by_cases hm : (s.ring_array handle.toNat).magic = RING_MAGIC
    · cases hk : cfg.kbuild with
      | true =>
          rcases hp : bk.shmem_getptr (s.ring_array handle.toNat).shmem_id
            with _ | p
          · rw [ring_attach_kbuild_ptrfail cfg bk s handle m hr hm hk hp]
            exact hInv
          · rw [ring_attach_kbuild_ok cfg bk s handle m p hr hm hk hp]
            intro j hj
            dsimp only at hj ⊢
            rcases eq_or_ne j handle.toNat with rfl | hjh
            · rw [set_bitSlot_self]
              exact Finset.insert_nonempty _ _
            · rw [set_bitSlot_ne s handle.toNat m j hjh] at hj ⊢
              exact hInv j hj
      | false =>
          rcases hp : s.ring_addr_array handle.toNat with _ | p
          · rw [ring_attach_resident_null cfg bk s handle m hr hm hk hp]
            exact hInv
          · rw [ring_attach_resident_ok cfg bk s handle m p hr hm hk hp]
            intro j hj
            dsimp only at hj ⊢
            rcases eq_or_ne j handle.toNat with rfl | hjh
            · rw [set_bitSlot_self]
              exact Finset.insert_nonempty _ _
            · rw [set_bitSlot_ne s handle.toNat m j hjh] at hj ⊢
              exact hInv j hj
    · cases hk : cfg.kbuild with
      | true =>
          rw [ring_attach_kbuild_nonexistent cfg bk s handle m hr hm hk]
          exact hInv
      | false =>
          cases he : bk.shm_exists (RTAPI_RING_SHM_KEY + handle.toNat) with
          | false =>
              rw [ring_attach_noseg cfg bk s handle m hr hm hk he]
              exact hInv
          | true =>
              by_cases hs : bk.shmem_new (RTAPI_RING_SHM_KEY + handle.toNat)
                  m 0 < 0
              · rw [ring_attach_ext_newfail cfg bk s handle m hr hm hk he hs]
                intro j hj
                dsimp only at hj ⊢
                rw [attachScratch_magic] at hj
                rw [attachScratch_bitmap]
                exact hInv j hj
              · rcases hp : bk.shmem_getptr
                    (bk.shmem_new (RTAPI_RING_SHM_KEY + handle.toNat) m 0)
                    with _ | p
                · rw [ring_attach_ext_ptrfail cfg bk s handle m hr hm hk he
                      hs hp]
                  intro j hj
                  dsimp only at hj ⊢
                  rw [attachScratch_magic] at hj
                  rw [attachScratch_bitmap]
                  exact hInv j hj
                · rw [ring_attach_ext_ok cfg bk s handle m p hr hm hk he hs hp]
                  intro j hj
                  dsimp only at hj ⊢
                  rcases eq_or_ne j handle.toNat with rfl | hjh
                  · rw [attachCommit_self]
                    exact Finset.insert_nonempty _ _
                  · rw [attachCommit_ne s handle.toNat m _ p j hjh] at hj ⊢
                    exact hInv j hj

theorem inv_step_detach (cfg : RingCfg) (bk : ShmBackend) (s : RingState)
    (handle : Int) (m : Nat) (hInv : TagNonEmptyInv s) :
    TagNonEmptyInv ((_rtapi_ring_detach cfg bk s handle m).2.1) := by
  by_cases hr : handle < 0 ∨ (cfg.maxRings : Int) ≤ handle
  · rw [ring_detach_oor cfg bk s handle m hr]
    exact hInv
  · by_cases hm : (s.ring_array handle.toNat).magic = RING_MAGIC
    · by_cases hc : ring_refcount_count
          ((s.ring_array handle.toNat).bitmap.erase m) cfg.maxRings = 0
      · rw [ring_detach_freed cfg bk s handle m hr hm hc]
        intro j hj
        dsimp only at hj ⊢
        rcases eq_or_ne j handle.toNat with rfl | hjh
        · rw [freeSlot_self] at hj
          exact absurd (show (0 : Nat) = RING_MAGIC from hj) (by decide)
        · rw [freeSlot_ne _ _ _ hjh, clear_bitSlot_ne s handle.toNat m j hjh]
            at hj ⊢
          exact hInv j hj
      · rw [ring_detach_retained cfg bk s handle m hr hm hc]
        intro j hj
        dsimp only at hj ⊢
        rcases eq_or_ne j handle.toNat with rfl | hjh
        · rw [clear_bitSlot_self]
          exact ring_refcount_count_nonempty _ _ hc
        · rw [clear_bitSlot_ne s handle.toNat m j hjh] at hj ⊢
          exact hInv j hj
    · rw [ring_detach_free cfg bk s handle m hr hm]
      exact hInv

theorem inv_stepOp (cfg : RingCfg) (bk : ShmBackend) (s : RingState)
    (op : RingOp) (hInv : TagNonEmptyInv s) :
    TagNonEmptyInv (stepOp cfg bk s op) := by
  cases op with
  | createOp a b m fl => exact inv_step_new cfg bk s a b m fl hInv
  | attachOp hd m => exact inv_step_attach cfg bk s hd m hInv
  | detachOp hd m => exact inv_step_detach cfg bk s hd m hInv
  | refcountOp hd => exact hInv

theorem inv_runOps (cfg : RingCfg) (bk : ShmBackend) :
    ∀ (ops : List RingOp) (s : RingState), TagNonEmptyInv s →
      TagNonEmptyInv (runOps cfg bk s ops) := by
  intro ops
  induction ops with
  | nil => intro s hs; exact hs
  | cons op rest ih => intro s hs; exact ih _ (inv_stepOp cfg bk s op hs)

/-- C8: in every table state reached from the empty registry by a sequence
of completed calls whose module ids lie in the counted bitmap range, every
slot whose tag holds the magic constant has a non-empty attacher set. -/
theorem C8_committed_nonempty (cfg : RingCfg) (bk : ShmBackend)
    (ops : List RingOp) (hids : ∀ op ∈ ops, op.modId < cfg.maxRings) :
    TagNonEmptyInv (runOps cfg bk initState ops) :=
  inv_runOps cfg bk ops initState
    (fun _ hj => absurd (show (0 : Nat) = RING_MAGIC from hj) (by decide))

/-- C8 witness: a concrete create, attach, detach, refcount sequence with
module ids 1 and 2 below RTAPI_MAX_RINGS = 3 satisfies the invariant. -/
theorem C8_committed_nonempty_witness :
    TagNonEmptyInv (runOps cfgU bkOK initState
      [RingOp.createOp 64 0 1 0, RingOp.attachOp 0 2, RingOp.detachOp 0 1,
       RingOp.refcountOp 0]) :=
  C8_committed_nonempty cfgU bkOK
    [RingOp.createOp 64 0 1 0, RingOp.attachOp 0 2, RingOp.detachOp 0 1,
     RingOp.refcountOp 0] (by decide)
